import Mathlib

/-!
Verification of the `Stream` / `Device` / `Mixer` program (`src/device.cpp`,
duplicated in `src/unnamed/part_000`).

Streams are shared mutable objects (`shared_ptr<Stream>` in the source), so
the embedding identifies each stream by an id and carries the mass-flow heap
explicitly as a function `StreamId → ℚ`.  The `double` mass flow of the
source is modelled as the exact rational it denotes.  A C++ `throw` is
modelled as returning `some err` together with the state as it stood at the
throw point (the source throws before any mutation in every operation, so
the state component is unchanged on error).
-/

namespace LabDevice

/-- Identity of a heap-allocated `Stream` object (`shared_ptr<Stream>` address). -/
abbrev StreamId := Nat

/-- The heap of stream mass flows: each stream id's current `mass_flow`. -/
abbrev Flows := StreamId → ℚ

/-- Source `const int MIXER_OUTPUTS = 1;`: a Mixer's fixed output capacity. -/
def MIXER_OUTPUTS : Nat := 1

/-- Which bounded collection overflowed. -/
inductive CapacityKind where
  | input
  | output
deriving DecidableEq, Repr

/-- The error taxonomy: `CapacityExceeded` corresponds to the thrown strings
"Too much inputs" / "Too much outputs", and `missingOutput` to
"Should set outputs before update". -/
inductive MixerError where
  | capacityExceeded : CapacityKind → MixerError
  | missingOutput : MixerError
deriving DecidableEq, Repr

/-- The `Stream` class: `mass_flow` and `name` fields (`device.cpp` lines 24-65). -/
structure Stream where
  mass_flow : ℚ
  name : String
deriving DecidableEq, Repr

/-- Source: `void setName(string s)` assigns the name field. -/
def Stream.setName (st : Stream) (s : String) : Stream :=
  { st with name := s }

/-- Source: `string getName()` returns the name field. -/
def Stream.getName (st : Stream) : String :=
  st.name

/-- Source: `void setMassFlow(double m)` assigns the mass-flow field. -/
def Stream.setMassFlow (st : Stream) (m : ℚ) : Stream :=
  { st with mass_flow := m }

/-- Source: `double getMassFlow() const` returns the mass-flow field. -/
def Stream.getMassFlow (st : Stream) : ℚ :=
  st.mass_flow

/-- The `Mixer` device state: the two stream collections inherited from
`Device` and the input capacity `_inputs_count` fixed at construction. -/
structure Mixer where
  inputs : List StreamId
  outputs : List StreamId
  inputsCount : Nat
deriving DecidableEq, Repr

/-- Constructor `Mixer(int inputs_count)`: fresh mixer with empty collections
(`device.cpp` lines 115-117). -/
def Mixer.make (inputs_count : Nat) : Mixer :=
  { inputs := [], outputs := [], inputsCount := inputs_count }

/-- Source `Mixer::addInput` (`device.cpp` lines 123-128): throws "Too much inputs"
when `inputs.size() == _inputs_count`, otherwise appends. -/
def Mixer.addInput (m : Mixer) (s : StreamId) : Mixer × Option MixerError :=
  if m.inputs.length = m.inputsCount then
    (m, some (.capacityExceeded .input))
  else
    ({ m with inputs := m.inputs ++ [s] }, none)

/-- Source `Mixer::addOutput` (`device.cpp` lines 134-139): throws "Too much outputs"
when `outputs.size() == MIXER_OUTPUTS`, otherwise appends. -/
def Mixer.addOutput (m : Mixer) (s : StreamId) : Mixer × Option MixerError :=
  if m.outputs.length = MIXER_OUTPUTS then
    (m, some (.capacityExceeded .output))
  else
    ({ m with outputs := m.outputs ++ [s] }, none)

/-- Source `Mixer::updateOutputs` (`device.cpp` lines 145-160): sums the input
flows, throws if `outputs` is empty (heap untouched at that point), then
assigns `sum / outputs.size()` to every output stream. -/
def Mixer.updateOutputs (m : Mixer) (f : Flows) : Flows × Option MixerError :=
  let sum_mass_flow : ℚ := (m.inputs.map f).sum
  if m.outputs.isEmpty then
    (f, some .missingOutput)
  else
    let output_mass : ℚ := sum_mass_flow / (m.outputs.length : ℚ)
    (m.outputs.foldl (fun g o => Function.update g o output_mass) f, none)

/-- One caller-visible operation on a mixer: attach an input, attach an
output, or recompute the outputs.  A failing operation leaves the state
unchanged, exactly as the source's throw-before-mutation does. -/
inductive Op where
  | addInput (s : StreamId)
  | addOutput (s : StreamId)
  | update
deriving DecidableEq, Repr

/-- Apply one operation, keeping whatever state the operation left behind
(errors discarded: the source's tests catch and continue). -/
def Mixer.applyOp (m : Mixer) (f : Flows) : Op → Mixer × Flows
  | .addInput s => ((m.addInput s).1, f)
  | .addOutput s => ((m.addOutput s).1, f)
  | .update => (m, (m.updateOutputs f).1)

/-- Run a sequence of operations from a given state. -/
def Mixer.run (m : Mixer) (f : Flows) : List Op → Mixer × Flows
  | [] => (m, f)
  | op :: ops =>
    let mf := m.applyOp f op
    Mixer.run mf.1 mf.2 ops

/-- Writing one value to every id in `l` leaves ids outside `l` untouched. -/
lemma foldl_update_not_mem (f : Flows) (v : ℚ) (l : List StreamId) (i : StreamId)
    (h : i ∉ l) : (l.foldl (fun g o => Function.update g o v) f) i = f i := by
  induction l generalizing f with
  | nil => rfl
  | cons o t ih =>
    simp only [List.foldl_cons]
    rw [ih _ (fun hm => h (List.mem_cons_of_mem _ hm))]
    have hne : i ≠ o := fun he => h (he ▸ List.mem_cons_self o t)
    exact Function.update_noteq hne _ _

/-- With exactly one output `o`, `updateOutputs` succeeds and writes the full
input sum to `o` (dividing by `outputs.size() = 1`). -/
lemma updateOutputs_single (m : Mixer) (f : Flows) (o : StreamId)
    (h : m.outputs = [o]) :
    m.updateOutputs f = (Function.update f o ((m.inputs.map f).sum), none) := by
  unfold Mixer.updateOutputs
  simp [h]

/-- One operation preserves both capacity bounds and the input capacity. -/
lemma applyOp_fst_inv (m : Mixer) (f : Flows) (op : Op)
    (h1 : m.inputs.length ≤ m.inputsCount)
    (h2 : m.outputs.length ≤ MIXER_OUTPUTS) :
    (m.applyOp f op).1.inputsCount = m.inputsCount ∧
      (m.applyOp f op).1.inputs.length ≤ m.inputsCount ∧
      (m.applyOp f op).1.outputs.length ≤ MIXER_OUTPUTS := by
  cases op with
  | addInput s =>
    simp only [Mixer.applyOp, Mixer.addInput]
    split_ifs with hc
    · exact ⟨rfl, h1, h2⟩
    · refine ⟨rfl, ?_, h2⟩
      have hlt := lt_of_le_of_ne h1 hc
      simpa using hlt
  | addOutput s =>
    simp only [Mixer.applyOp, Mixer.addOutput]
    split_ifs with hc
    · exact ⟨rfl, h1, h2⟩
    · refine ⟨rfl, h1, ?_⟩
      have hlt := lt_of_le_of_ne h2 hc
      simpa using hlt
  | update => exact ⟨rfl, h1, h2⟩

/-- A run of operations preserves both capacity bounds. -/
lemma run_fst_inv (ops : List Op) (m : Mixer) (f : Flows)
    (h1 : m.inputs.length ≤ m.inputsCount)
    (h2 : m.outputs.length ≤ MIXER_OUTPUTS) :
    (Mixer.run m f ops).1.inputs.length ≤ m.inputsCount ∧
      (Mixer.run m f ops).1.outputs.length ≤ MIXER_OUTPUTS := by
  induction ops generalizing m f with
  | nil => exact ⟨h1, h2⟩
  | cons op ops ih =>
    obtain ⟨hcnt, hi, ho⟩ := applyOp_fst_inv m f op h1 h2
    have hrun := ih (m.applyOp f op).1 (m.applyOp f op).2 (hcnt ▸ hi) ho
    simpa [Mixer.run] using And.intro (hcnt ▸ hrun.1) hrun.2

/-- C1: for a Mixer with two attached inputs carrying flows `a` and `b` (any
sign) and exactly one attached output, `updateOutputs` succeeds and sets the
output stream's mass flow to exactly `a + b`. -/
theorem mixer_sum_two_inputs (m : Mixer) (f : Flows) (i1 i2 o : StreamId)
    (a b : ℚ) (hin : m.inputs = [i1, i2]) (hout : m.outputs = [o])
    (ha : f i1 = a) (hb : f i2 = b) :
    (m.updateOutputs f).2 = none ∧ (m.updateOutputs f).1 o = a + b := by
  rw [updateOutputs_single m f o hout]
  simp [hin, ha, hb]

/-- Witness for C1 at flows 10 and -5 on inputs 1, 2 and output 3. -/
theorem mixer_sum_two_inputs_witness :
    ((⟨[1, 2], [3], 2⟩ : Mixer).updateOutputs
        (fun i => if i = 1 then 10 else if i = 2 then -5 else 0)).2 = none ∧
    ((⟨[1, 2], [3], 2⟩ : Mixer).updateOutputs
        (fun i => if i = 1 then 10 else if i = 2 then -5 else 0)).1 3
      = 10 + -5 := by
  exact mixer_sum_two_inputs ⟨[1, 2], [3], 2⟩ _ 1 2 3 10 (-5) rfl rfl
    (by norm_num) (by norm_num)

/-- C2: with an empty output collection, `updateOutputs` fails with the
missing-output error and returns the heap entirely unchanged (the throw
happens before any division or assignment). -/
theorem updateOutputs_missing_output (m : Mixer) (f : Flows)
    (h : m.outputs = []) :
    m.updateOutputs f = (f, some MixerError.missingOutput) := by
  unfold Mixer.updateOutputs
  simp [h]

/-- Witness for C2 on a mixer with two inputs and no output. -/
theorem updateOutputs_missing_output_witness :
    (⟨[1, 2], [], 2⟩ : Mixer).updateOutputs (fun _ => 0)
      = (fun _ => 0, some MixerError.missingOutput) :=
  updateOutputs_missing_output ⟨[1, 2], [], 2⟩ (fun _ => 0) rfl

/-- C3: `addInput` fails with the input capacity error and leaves the mixer
unchanged when the input collection already holds `inputsCount` streams, and
appends the stream when it holds fewer. -/
theorem addInput_capacity (m : Mixer) (s : StreamId) :
    (m.inputs.length = m.inputsCount →
      m.addInput s = (m, some (MixerError.capacityExceeded CapacityKind.input))) ∧
    (m.inputs.length < m.inputsCount →
      m.addInput s = ({ m with inputs := m.inputs ++ [s] }, none)) := by
  constructor
  · intro h
    simp [Mixer.addInput, h]
  · intro h
    simp [Mixer.addInput, Nat.ne_of_lt h]

/-- Witness for C3: a full mixer rejects a fourth stream unchanged, and a
non-full mixer appends. -/
theorem addInput_capacity_witness :
    (⟨[1, 2], [], 2⟩ : Mixer).addInput 7
        = (⟨[1, 2], [], 2⟩, some (MixerError.capacityExceeded CapacityKind.input)) ∧
    (⟨[1], [], 2⟩ : Mixer).addInput 7 = (⟨[1, 7], [], 2⟩, none) := by
  refine ⟨(addInput_capacity ⟨[1, 2], [], 2⟩ 7).1 rfl, ?_⟩
  have h := (addInput_capacity ⟨[1], [], 2⟩ 7).2 (by norm_num)
  simpa using h

/-- C4: `addOutput` fails with the output capacity error and leaves the mixer
unchanged when one output is already attached (capacity fixed at 1), and
appends the stream when the output collection is empty. -/
theorem addOutput_capacity (m : Mixer) (s : StreamId) :
    (m.outputs.length = 1 →
      m.addOutput s = (m, some (MixerError.capacityExceeded CapacityKind.output))) ∧
    (m.outputs = [] →
      m.addOutput s = ({ m with outputs := [s] }, none)) := by
  constructor
  · intro h
    simp [Mixer.addOutput, MIXER_OUTPUTS, h]
  · intro h
    simp [Mixer.addOutput, MIXER_OUTPUTS, h]

/-- Witness for C4: a mixer with one output rejects a second unchanged, and
an output-less mixer appends. -/
theorem addOutput_capacity_witness :
    (⟨[1, 2], [3], 2⟩ : Mixer).addOutput 4
        = (⟨[1, 2], [3], 2⟩, some (MixerError.capacityExceeded CapacityKind.output)) ∧
    (⟨[1, 2], [], 2⟩ : Mixer).addOutput 3 = (⟨[1, 2], [3], 2⟩, none) := by
  refine ⟨(addOutput_capacity ⟨[1, 2], [3], 2⟩ 4).1 rfl, ?_⟩
  have h := (addOutput_capacity ⟨[1, 2], [], 2⟩ 3).2 rfl
  simpa using h

/-- C5: from construction with input capacity `cap` and empty collections,
every sequence of addInput / addOutput / updateOutputs operations (failing
ones included) keeps `len(inputs) ≤ cap` and `len(outputs) ≤ 1`. -/
theorem mixer_capacity_invariant (cap : Nat) (f : Flows) (ops : List Op) :
    ((Mixer.make cap).run f ops).1.inputs.length ≤ cap ∧
    ((Mixer.make cap).run f ops).1.outputs.length ≤ MIXER_OUTPUTS := by
  have h := run_fst_inv ops (Mixer.make cap) f (by simp [Mixer.make])
    (by simp [Mixer.make])
  simpa [Mixer.make] using h

/-- C6: with no inputs attached and one output, `updateOutputs` succeeds and
sets the output flow to 0, whatever it held before. -/
theorem updateOutputs_no_inputs (m : Mixer) (f : Flows) (o : StreamId)
    (hin : m.inputs = []) (hout : m.outputs = [o]) :
    (m.updateOutputs f).2 = none ∧ (m.updateOutputs f).1 o = 0 := by
  rw [updateOutputs_single m f o hout]
  simp [hin]

/-- Witness for C6: output stream 5 previously holding 42 is reset to 0. -/
theorem updateOutputs_no_inputs_witness :
    ((⟨[], [5], 3⟩ : Mixer).updateOutputs (fun _ => 42)).2 = none ∧
    ((⟨[], [5], 3⟩ : Mixer).updateOutputs (fun _ => 42)).1 5 = 0 :=
  updateOutputs_no_inputs ⟨[], [5], 3⟩ (fun _ => 42) 5 rfl rfl

/-- C7: `updateOutputs` is a pure function of the input flows at call time:
with one output attached it succeeds and writes the sum of the current input
flows, so recomputing after any mutation of an input reflects the new sum. -/
theorem updateOutputs_pure_sum (m : Mixer) (f : Flows) (o : StreamId)
    (hout : m.outputs = [o]) :
    (m.updateOutputs f).2 = none ∧
    (m.updateOutputs f).1 o = (m.inputs.map f).sum := by
  rw [updateOutputs_single m f o hout]
  simp

/-- Witness for C7: inputs 10 and 5 give output 15; the first input changed
to 20 gives output 25 on recomputation. -/
theorem updateOutputs_pure_sum_witness :
    ((⟨[1, 2], [3], 2⟩ : Mixer).updateOutputs
        (fun i => if i = 1 then 10 else if i = 2 then 5 else 0)).1 3 = 15 ∧
    ((⟨[1, 2], [3], 2⟩ : Mixer).updateOutputs
        (fun i => if i = 1 then 20 else if i = 2 then 5 else 0)).1 3 = 25 := by
  constructor
  · have h := (updateOutputs_pure_sum ⟨[1, 2], [3], 2⟩
      (fun i => if i = 1 then 10 else if i = 2 then 5 else 0) 3 rfl).2
    rw [h]
    norm_num
  · have h := (updateOutputs_pure_sum ⟨[1, 2], [3], 2⟩
      (fun i => if i = 1 then 20 else if i = 2 then 5 else 0) 3 rfl).2
    rw [h]
    norm_num

/-- C8: calling `updateOutputs` twice in a row with input flows unchanged by
the first call yields the same output flow value both times. -/
theorem updateOutputs_idempotent (m : Mixer) (f : Flows) (o : StreamId)
    (hout : m.outputs = [o])
    (hunch : ∀ i ∈ m.inputs, (m.updateOutputs f).1 i = f i) :
    (m.updateOutputs ((m.updateOutputs f).1)).1 o = (m.updateOutputs f).1 o := by
  have hmap : m.inputs.map ((m.updateOutputs f).1) = m.inputs.map f :=
    List.map_congr_left hunch
  have h1 := updateOutputs_single m f o hout
  have h2 := updateOutputs_single m ((m.updateOutputs f).1) o hout
  rw [h2, hmap, h1]
  simp

/-- Witness for C8 on disjoint inputs 1, 2 and output 3 with flows 10 and 5. -/
theorem updateOutputs_idempotent_witness :
    ((⟨[1, 2], [3], 2⟩ : Mixer).updateOutputs
        (((⟨[1, 2], [3], 2⟩ : Mixer).updateOutputs
          (fun i => if i = 1 then 10 else if i = 2 then 5 else 0)).1)).1 3
      = ((⟨[1, 2], [3], 2⟩ : Mixer).updateOutputs
          (fun i => if i = 1 then 10 else if i = 2 then 5 else 0)).1 3 := by
  exact updateOutputs_idempotent ⟨[1, 2], [3], 2⟩
    (fun i => if i = 1 then 10 else if i = 2 then 5 else 0) 3 rfl (by decide)

/-- C10: when no attached input aliases an attached output, a successful
`updateOutputs` leaves every input stream's flow unchanged: only outputs are
written. -/
theorem updateOutputs_frame (m : Mixer) (f : Flows)
    (hdisj : ∀ i ∈ m.inputs, i ∉ m.outputs)
    (_hok : (m.updateOutputs f).2 = none) :
    ∀ i ∈ m.inputs, (m.updateOutputs f).1 i = f i := by
  intro i hi
  unfold Mixer.updateOutputs
  by_cases h : m.outputs.isEmpty
  · simp [h]
  · simp only [h, Bool.false_eq_true, if_false]
    exact foldl_update_not_mem f _ m.outputs i (hdisj i hi)

/-- Witness for C10: inputs 1 and 2 keep their flows 10 and 5 across a
successful update of output 3. -/
theorem updateOutputs_frame_witness :
    ((⟨[1, 2], [3], 2⟩ : Mixer).updateOutputs
        (fun i => if i = 1 then 10 else if i = 2 then 5 else 7)).1 1 = 10 ∧
    ((⟨[1, 2], [3], 2⟩ : Mixer).updateOutputs
        (fun i => if i = 1 then 10 else if i = 2 then 5 else 7)).1 2 = 5 := by
  have h := updateOutputs_frame ⟨[1, 2], [3], 2⟩
    (fun i => if i = 1 then 10 else if i = 2 then 5 else 7)
    (by decide) (by decide)
  exact ⟨by simpa using h 1 (by simp), by simpa using h 2 (by simp)⟩

/-- C9: `setMassFlow` replaces the stream's flow unconditionally — any value,
negative included, with no range validation — and `getMassFlow` then returns
exactly that value. -/
theorem setMassFlow_getMassFlow (st : Stream) (v : ℚ) :
    (st.setMassFlow v).getMassFlow = v :=
  rfl

end LabDevice
